import Mathlib

/-!
Verification development for the Smart Trader Cockpit core:
the retry/backoff wrapper (`retryUtils.ts`) and the local trading-journal
store (`journalStorage.ts`).  TypeScript functions are embedded shallowly:
JS numbers used as integer timestamps/counters become `Nat`, JS numbers
used in rate/P&L arithmetic become `Rat`, optional fields become `Option`,
thrown exceptions become `Except`, and `localStorage` becomes an explicit
state record threaded through the operations.
-/

namespace SmartTrader

/-- `listInfix needle hay` decides whether `needle` occurs contiguously in
`hay`. -/
def listInfix (needle : List Char) : List Char → Bool
  | [] => needle.isEmpty
  | c :: rest => needle.isPrefixOf (c :: rest) || listInfix needle rest

/-- JS `String.prototype.includes`: substring containment, modelled on the
character lists of the two strings. -/
def jsIncludes (s pat : String) : Bool :=
  listInfix pat.toList s.toList

/-- A JS error object as inspected by `retryUtils.ts`: an optional numeric
`status` and an optional `message` string. -/
structure ErrObj where
  status : Option Nat
  message : Option String
deriving DecidableEq, Repr

/-- A JS error value: either a falsy/non-object value (rejected by the
`!error || typeof error !== 'object'` guard) or an error object. -/
inductive JsError where
  | prim
  | obj (o : ErrObj)
deriving DecidableEq, Repr

/-- The `RETRY_CONFIG` constant of `retryUtils.ts`. -/
structure RetryConfig where
  MAX_RETRIES : Nat
  INITIAL_DELAY_MS : Nat
  MAX_DELAY_MS : Nat
  BACKOFF_MULTIPLIER : Nat

def RETRY_CONFIG : RetryConfig :=
  { MAX_RETRIES := 3
    INITIAL_DELAY_MS := 2000
    MAX_DELAY_MS := 8000
    BACKOFF_MULTIPLIER := 2 }

/-- `getBackoffDelay` of `retryUtils.ts`:
`min(INITIAL_DELAY * MULTIPLIER ^ attempt, MAX_DELAY)`. -/
def getBackoffDelay (attempt : Nat) : Nat :=
  let delay := RETRY_CONFIG.INITIAL_DELAY_MS * RETRY_CONFIG.BACKOFF_MULTIPLIER ^ attempt
  min delay RETRY_CONFIG.MAX_DELAY_MS

/-- The delay slept at the head of retry number `attempt` (attempt ≥ 1) in
`withRetry`: the source computes `getBackoffDelay(attempt - 1)`. -/
def delayBeforeRetry (attempt : Nat) : Nat :=
  getBackoffDelay (attempt - 1)

/-- JS `String.prototype.toLowerCase`, modelled as per-character
lowercasing of the string's character list. -/
def jsToLower (s : String) : String :=
  ⟨s.data.map Char.toLower⟩

/-- `isRetryableError` of `retryUtils.ts`. -/
def isRetryableError : JsError → Bool
  | .prim => false
  | .obj o =>
    if o.status == some 429 || o.status == some 503 then
      true
    else
      let message := (o.message.map jsToLower).getD ""
      jsIncludes message "quota" || jsIncludes message "rate limit" ||
        jsIncludes message "too many requests"

/-- The retry loop of `withRetry`.  The wrapped async operation is modelled
as a function from the attempt number to that attempt's outcome.  `fuel`
is the number of retries still allowed, i.e. `MAX_RETRIES - attempt`, so
`fuel = 0` exactly when `attempt === RETRY_CONFIG.MAX_RETRIES`. -/
def withRetryGo (operation : Nat → Except JsError α) : Nat → Nat → Except JsError α
  | attempt, fuel =>
    match operation attempt with
    | .ok result => .ok result
    | .error e =>
      if !isRetryableError e then
        .error e
      else
        match fuel with
        | 0 => .error e
        | fuel + 1 => withRetryGo operation (attempt + 1) fuel

/-- `withRetry` of `retryUtils.ts`: run the operation with attempt counter
starting at 0 and a budget of `MAX_RETRIES` additional attempts. -/
def withRetry (operation : Nat → Except JsError α) : Except JsError α :=
  withRetryGo operation 0 RETRY_CONFIG.MAX_RETRIES

/-! ## Journal data model (`journalStorage.ts`) -/

inductive Decision where
  | BUY | WAIT | SELL
deriving DecidableEq, Repr

inductive Confidence where
  | High | Medium | Low
deriving DecidableEq, Repr

inductive TradeMode where
  | scalping | swing
deriving DecidableEq, Repr

inductive TradeOutcome where
  | WIN | LOSS | BREAKEVEN | PENDING
deriving DecidableEq, Repr

structure TradingPlan where
  entry_area : String
  target_price : String
  stop_loss : String
  risk_reward_ratio : String
deriving DecidableEq, Repr

structure AnalysisResponse where
  decision : Decision
  confidence_score : Confidence
  is_demo : Option Bool
  analysis_summary : String
  trading_plan : TradingPlan
deriving DecidableEq, Repr

/-- A journal entry.  Timestamps are `Nat` milliseconds; `pnl` is a `Rat`
since the source does rational arithmetic (sums, averages) on it. -/
structure JournalEntry where
  id : String
  timestamp : Nat
  mode : TradeMode
  imageThumbnail : String
  imageFileName : String
  decision : Decision
  confidence : Confidence
  analysis : AnalysisResponse
  outcome : Option TradeOutcome
  outcomeUpdatedAt : Option Nat
  pair : Option String
  notes : Option String
  pnl : Option Rat
  isConfluence : Option Bool
deriving DecidableEq, Repr

structure JournalStore where
  entries : List JournalEntry
deriving DecidableEq, Repr

def MAX_ENTRIES : Nat := 50

/-! ## The localStorage environment model

`localStorage.setItem` either succeeds, fails with `QuotaExceededError`, or
fails with some other error.  A `StorageState` carries the persisted
content, a script of outcomes for successive `setItem` calls (an empty
script means every call succeeds), and an observation log of the store
values passed to `setItem`, in call order. -/

inductive SetResult where
  | ok | quotaExceeded | otherError
deriving DecidableEq, Repr

/-- The persisted content under the journal key, as seen through
`getItem` + `JSON.parse`:
* `absent`: `getItem` returns null;
* `unparseable`: `JSON.parse` throws;
* `jsonNull`: content `"null"`, which parses to the JS value `null`;
* `store s`: content parsing to a well-formed journal store. -/
inductive StoredData where
  | absent
  | unparseable
  | jsonNull
  | store (s : JournalStore)
deriving DecidableEq, Repr

structure StorageState where
  data : StoredData
  responses : List SetResult
  writes : List JournalStore
deriving DecidableEq, Repr

/-- One `localStorage.setItem` call: consume the next scripted outcome
(defaulting to success), update the persisted content on success, and log
the attempted write. -/
def setItem (s : JournalStore) (st : StorageState) : SetResult × StorageState :=
  match st.responses with
  | [] => (.ok, { data := .store s, responses := [], writes := st.writes ++ [s] })
  | r :: rs =>
    (r, { data := if r = .ok then .store s else st.data
          responses := rs
          writes := st.writes ++ [s] })

/-- The runtime value `getJournal` hands to its callers after the
unchecked `parsed as JournalStore` cast: either a genuine store object, or
the JS value `null` (when the persisted text was `"null"`). -/
inductive JSStore where
  | real (s : JournalStore)
  | nullVal
deriving DecidableEq, Repr

/-- `getJournal` of `journalStorage.ts`: absent content and `JSON.parse`
failures both yield the empty store; any successfully parsed value is
returned by the cast without a shape check. -/
def getJournal : StoredData → JSStore
  | .absent => .real ⟨[]⟩
  | .unparseable => .real ⟨[]⟩
  | .jsonNull => .nullVal
  | .store s => .real s

/-- Reading `.entries` off the value `getJournal` returned: on the JS value
`null` this throws a `TypeError`. -/
def entriesOf : JSStore → Except String (List JournalEntry)
  | .real s => .ok s.entries
  | .nullVal => .error "TypeError: cannot read entries of null"

/-- `saveJournalToStorage` of `journalStorage.ts`.  Returns the success
flag, the (possibly mutated: the source drops the last element of
`journal.entries` in place on a quota failure) journal object, and the new
storage state. -/
def saveJournalToStorage (journal : JournalStore) (st : StorageState) :
    Bool × JournalStore × StorageState :=
  match setItem journal st with
  | (.ok, st1) => (true, journal, st1)
  | (.quotaExceeded, st1) =>
    if journal.entries.length > 1 then
      let journal2 : JournalStore := ⟨journal.entries.dropLast⟩
      match setItem journal2 st1 with
      | (.ok, st2) => (true, journal2, st2)
      | (.quotaExceeded, st2) => (false, journal2, st2)
      | (.otherError, st2) => (false, journal2, st2)
    else
      (false, journal, st1)
  | (.otherError, st1) => (false, journal, st1)

/-- The entry literal built by `saveJournalEntry`: outcome initialised to
PENDING, `pair || undefined` (so an empty-string pair becomes absent),
`isConfluence || false`. -/
def newEntry (mode : TradeMode) (imageFileName : String) (analysis : AnalysisResponse)
    (pair : Option String) (isConfluence : Option Bool)
    (thumbnail : String) (id : String) (now : Nat) : JournalEntry :=
  { id := id
    timestamp := now
    mode := mode
    imageThumbnail := thumbnail
    imageFileName := imageFileName
    decision := analysis.decision
    confidence := analysis.confidence_score
    analysis := analysis
    outcome := some .PENDING
    outcomeUpdatedAt := none
    pair := match pair with
            | some p => if p = "" then none else some p
            | none => none
    notes := none
    pnl := none
    isConfluence := some (isConfluence.getD false) }

/-- `journal.entries.unshift(entry)` followed by the `MAX_ENTRIES`
truncation in `saveJournalEntry`. -/
def addAndTruncate (entry : JournalEntry) (entries0 : List JournalEntry) :
    List JournalEntry :=
  let entries1 := entry :: entries0
  if entries1.length > MAX_ENTRIES then entries1.take MAX_ENTRIES else entries1

/-- The body of `saveJournalEntry` (everything inside its outer `try`).
`thumbRes` is the outcome of the awaited `createThumbnail` call; its
failure is handled by the inner `try/catch` (empty-string fallback).
Raises (`Except.error`) only where the JS code would throw: reading
`.entries` off a non-store parsed value. -/
def saveJournalEntryBody (mode : TradeMode) (imageFileName : String)
    (analysis : AnalysisResponse) (pair : Option String) (isConfluence : Option Bool)
    (thumbRes : Except Unit String) (id : String) (now : Nat)
    (st : StorageState) : Except String StorageState :=
  let thumbnail := match thumbRes with
                   | .ok t => t
                   | .error _ => ""
  let entry := newEntry mode imageFileName analysis pair isConfluence thumbnail id now
  match entriesOf (getJournal st.data) with
  | .error e => .error e
  | .ok entries0 =>
    let journal : JournalStore := ⟨addAndTruncate entry entries0⟩
    match saveJournalToStorage journal st with
    | (saved, journal1, st1) =>
      if !saved && thumbnail != "" then
        let entry2 := { entry with imageThumbnail := "" }
        let journal2 : JournalStore := ⟨journal1.entries.set 0 entry2⟩
        .ok (saveJournalToStorage journal2 st1).2.2
      else
        .ok st1

/-- `saveJournalEntry` of `journalStorage.ts`: the outer `try/catch`
swallows any error, leaving the storage untouched (the only raise site
sits before the first write). -/
def saveJournalEntry (mode : TradeMode) (imageFileName : String)
    (analysis : AnalysisResponse) (pair : Option String) (isConfluence : Option Bool)
    (thumbRes : Except Unit String) (id : String) (now : Nat)
    (st : StorageState) : StorageState :=
  match saveJournalEntryBody mode imageFileName analysis pair isConfluence thumbRes id now st with
  | .ok st1 => st1
  | .error _ => st

/-- `entries[i] = f entries[i]` at index `i`, other positions unchanged. -/
def listModify (f : α → α) : Nat → List α → List α
  | _, [] => []
  | 0, x :: xs => f x :: xs
  | n + 1, x :: xs => x :: listModify f n xs

/-- The record-update literal in `updateJournalOutcome`: set `outcome`,
stamp `outcomeUpdatedAt`, and overwrite `notes`/`pnl` only when the
corresponding argument is not `undefined`. -/
def applyOutcomeUpdate (outcome : TradeOutcome) (notes : Option String)
    (pnl : Option Rat) (now : Nat) (e : JournalEntry) : JournalEntry :=
  { e with
    outcome := some outcome
    outcomeUpdatedAt := some now
    notes := match notes with
             | some n => some n
             | none => e.notes
    pnl := match pnl with
           | some p => some p
           | none => e.pnl }

/-- `updateJournalOutcome` of `journalStorage.ts`.  A throw inside the
`try` (corrupt parsed value) is caught and reported as `false`. -/
def updateJournalOutcome (id : String) (outcome : TradeOutcome)
    (notes : Option String) (pnl : Option Rat) (now : Nat)
    (st : StorageState) : Bool × StorageState :=
  match entriesOf (getJournal st.data) with
  | .error _ => (false, st)
  | .ok entries =>
    match entries.findIdx? (fun e => e.id == id) with
    | none => (false, st)
    | some entryIndex =>
      let journal : JournalStore :=
        ⟨listModify (applyOutcomeUpdate outcome notes pnl now) entryIndex entries⟩
      match saveJournalToStorage journal st with
      | (ok, _, st1) => (ok, st1)

/-! ## Statistics (`getJournalStats`) -/

inductive StreakType where
  | WIN | LOSS | NONE
deriving DecidableEq, Repr

structure JournalStats where
  total : Nat
  winCount : Nat
  lossCount : Nat
  breakEvenCount : Nat
  pendingCount : Nat
  winRate : Rat
  winRateScalping : Rat
  winRateSwing : Rat
  currentStreak : Nat
  streakType : StreakType
  totalPnl : Rat
  avgPnl : Rat
deriving DecidableEq, Repr

/-- Stable insertion into a list already sorted by the boolean relation
`le`: the new element goes in front of the first position where it may
precede the resident. -/
def insSorted (le : α → α → Bool) (x : α) : List α → List α
  | [] => [x]
  | y :: ys => if le x y then x :: y :: ys else y :: insSorted le x ys

/-- JS `Array.prototype.sort` with a consistent comparator: a stable sort
by the boolean relation `le a b` ("a may come before b"), modelled as
insertion sort.  For the total preorders induced by numeric keys this is
the unique stable result, hence exactly what the (stable) JS sort
produces. -/
def jsSortBy (le : α → α → Bool) : List α → List α
  | [] => []
  | x :: xs => insSorted le x (jsSortBy le xs)

/-- The sort key `(e.outcomeUpdatedAt || e.timestamp)` of the streak
computation.  JS `||` tests truthiness, so both an absent and a zero
`outcomeUpdatedAt` fall back to `timestamp`. -/
def streakSortKey (e : JournalEntry) : Nat :=
  match e.outcomeUpdatedAt with
  | some v => if v = 0 then e.timestamp else v
  | none => e.timestamp

/-- `e.outcome && e.outcome !== 'PENDING'`: the per-mode "resolved" test. -/
def isResolvedOutcome (e : JournalEntry) : Bool :=
  match e.outcome with
  | some o => o != .PENDING
  | none => false

/-- `e.outcome && e.outcome !== 'PENDING' && e.outcome !== 'BREAKEVEN'`:
the streak filter. -/
def streakFilter (e : JournalEntry) : Bool :=
  match e.outcome with
  | some o => o != .PENDING && o != .BREAKEVEN
  | none => false

/-- The `for … break` loop of the streak computation: length of the
initial run of entries whose outcome equals `firstOutcome`. -/
def streakCount (firstOutcome : TradeOutcome) : List JournalEntry → Nat
  | [] => 0
  | e :: rest =>
    if e.outcome = some firstOutcome then streakCount firstOutcome rest + 1 else 0

/-- The pure aggregation of `getJournalStats` over an entry list. -/
def computeStats (entries : List JournalEntry) : JournalStats :=
  let total := entries.length
  let winCount := (entries.filter (fun e => e.outcome == some .WIN)).length
  let lossCount := (entries.filter (fun e => e.outcome == some .LOSS)).length
  let breakEvenCount := (entries.filter (fun e => e.outcome == some .BREAKEVEN)).length
  let pendingCount :=
    (entries.filter (fun e => e.outcome == none || e.outcome == some .PENDING)).length
  let resolvedTrades := winCount + lossCount + breakEvenCount
  let winRate : Rat :=
    if resolvedTrades > 0 then (winCount : Rat) / (resolvedTrades : Rat) * 100 else 0
  let scalpingEntries := entries.filter (fun e => e.mode == .scalping)
  let swingEntries := entries.filter (fun e => e.mode == .swing)
  let scalpingWins := (scalpingEntries.filter (fun e => e.outcome == some .WIN)).length
  let scalpingResolved := (scalpingEntries.filter isResolvedOutcome).length
  let winRateScalping : Rat :=
    if scalpingResolved > 0 then (scalpingWins : Rat) / (scalpingResolved : Rat) * 100 else 0
  let swingWins := (swingEntries.filter (fun e => e.outcome == some .WIN)).length
  let swingResolved := (swingEntries.filter isResolvedOutcome).length
  let winRateSwing : Rat :=
    if swingResolved > 0 then (swingWins : Rat) / (swingResolved : Rat) * 100 else 0
  let sortedByOutcome :=
    jsSortBy (fun a b => decide (streakSortKey b ≤ streakSortKey a))
      (entries.filter streakFilter)
  let streakPair : Nat × StreakType :=
    match sortedByOutcome with
    | [] => (0, .NONE)
    | first :: _ =>
      match first.outcome with
      | some .WIN => (streakCount .WIN sortedByOutcome, .WIN)
      | some .LOSS => (streakCount .LOSS sortedByOutcome, .LOSS)
      | _ => (0, .NONE)
  let entriesWithPnl := entries.filter (fun e => e.pnl != none)
  let totalPnl : Rat := entriesWithPnl.foldl (fun sum e => sum + e.pnl.getD 0) 0
  let avgPnl : Rat :=
    if entriesWithPnl.length > 0 then totalPnl / (entriesWithPnl.length : Rat) else 0
  { total := total
    winCount := winCount
    lossCount := lossCount
    breakEvenCount := breakEvenCount
    pendingCount := pendingCount
    winRate := winRate
    winRateScalping := winRateScalping
    winRateSwing := winRateSwing
    currentStreak := streakPair.1
    streakType := streakPair.2
    totalPnl := totalPnl
    avgPnl := avgPnl }

/-- `getJournalStats` as run against persisted storage: it reads
`.entries` off whatever `getJournal` returned, so it raises exactly where
the JS code would throw a `TypeError`. -/
def getJournalStatsE (d : StoredData) : Except String JournalStats :=
  match entriesOf (getJournal d) with
  | .error e => .error e
  | .ok entries => .ok (computeStats entries)

/-! ## Spec-side definitions, for comparison with the source embedding -/

/-- The streak sort key as worded by the spec: `outcomeUpdatedAt` *if
present*, else the creation timestamp. -/
def claimStreakKey (e : JournalEntry) : Nat :=
  e.outcomeUpdatedAt.getD e.timestamp

/-- The streak algorithm as worded by the claim: keep only WIN/LOSS
entries, sort descending by `claimStreakKey`, and count the initial run
sharing the most recent entry's outcome. -/
def claimStreak (entries : List JournalEntry) : Nat × StreakType :=
  let sorted :=
    jsSortBy (fun a b => decide (claimStreakKey b ≤ claimStreakKey a))
      (entries.filter (fun e => e.outcome == some .WIN || e.outcome == some .LOSS))
  match sorted with
  | [] => (0, .NONE)
  | first :: _ =>
    match first.outcome with
    | some .WIN => ((sorted.takeWhile (fun e => e.outcome == some TradeOutcome.WIN)).length, .WIN)
    | some .LOSS => ((sorted.takeWhile (fun e => e.outcome == some TradeOutcome.LOSS)).length, .LOSS)
    | _ => (0, .NONE)

/-- The streak algorithm with the claim's wording amended at the sort key:
`outcomeUpdatedAt` is used when present *and nonzero* (the source tests JS
truthiness, not presence). -/
def amendedStreak (entries : List JournalEntry) : Nat × StreakType :=
  let sorted :=
    jsSortBy (fun a b => decide (streakSortKey b ≤ streakSortKey a))
      (entries.filter (fun e => e.outcome == some .WIN || e.outcome == some .LOSS))
  match sorted with
  | [] => (0, .NONE)
  | first :: _ =>
    match first.outcome with
    | some .WIN => ((sorted.takeWhile (fun e => e.outcome == some TradeOutcome.WIN)).length, .WIN)
    | some .LOSS => ((sorted.takeWhile (fun e => e.outcome == some TradeOutcome.LOSS)).length, .LOSS)
    | _ => (0, .NONE)

/-- The per-mode (scalping) win rate as the claim describes it: BREAKEVEN
excluded from the denominator. -/
def claimWinRateScalping (entries : List JournalEntry) : Rat :=
  let scalpingEntries := entries.filter (fun e => e.mode == .scalping)
  let wins := (scalpingEntries.filter (fun e => e.outcome == some .WIN)).length
  let resolvedExclBE :=
    (scalpingEntries.filter
      (fun e => e.outcome == some .WIN || e.outcome == some .LOSS)).length
  if resolvedExclBE > 0 then (wins : Rat) / (resolvedExclBE : Rat) * 100 else 0

/-! ## Concrete sample data -/

def samplePlan : TradingPlan := ⟨"entry", "target", "stop", "rr"⟩

def sampleAnalysis : AnalysisResponse := ⟨.BUY, .High, none, "summary", samplePlan⟩

/-- A journal entry with the fields the statistics read set explicitly. -/
def mkEntry (id : String) (mode : TradeMode) (outcome : Option TradeOutcome)
    (ts : Nat) (ou : Option Nat) (pnl : Option Rat) : JournalEntry :=
  { id := id
    timestamp := ts
    mode := mode
    imageThumbnail := ""
    imageFileName := "chart.png"
    decision := .BUY
    confidence := .High
    analysis := sampleAnalysis
    outcome := outcome
    outcomeUpdatedAt := ou
    pair := none
    notes := none
    pnl := pnl
    isConfluence := none }

/-- Empty browser profile: nothing persisted, `setItem` always succeeds. -/
def initStorage : StorageState := ⟨.absent, [], []⟩

/-- Add `n` entries sequentially through `saveJournalEntry`: the `k`-th
added entry (1-based) has id `toString k` and timestamp `k`. -/
def addN : Nat → StorageState → StorageState
  | 0, st => st
  | k + 1, st =>
    saveJournalEntry .scalping "chart.png" sampleAnalysis none none
      (.ok "thumb") (toString (k + 1)) (k + 1) (addN k st)

/-- Projection used to observe the persisted entry list. -/
def storedEntries : StoredData → List JournalEntry
  | .store s => s.entries
  | _ => []

/-- Entry with a zero `outcomeUpdatedAt` (WIN, created at 100): JS `||`
sends its sort key to the creation timestamp, the spec's "if present"
wording sends it to 0. -/
def entryZeroStamp : JournalEntry := mkEntry "A" .scalping (some .WIN) 100 (some 0) none

/-- Entry resolved at 60 (LOSS, created at 50). -/
def entrySixtyStamp : JournalEntry := mkEntry "B" .scalping (some .LOSS) 50 (some 60) none

/-- One scalping WIN. -/
def entryScalpWin : JournalEntry := mkEntry "w" .scalping (some .WIN) 10 none none

/-- One scalping BREAKEVEN. -/
def entryScalpBE : JournalEntry := mkEntry "b" .scalping (some .BREAKEVEN) 20 none none

/-- One swing WIN. -/
def entrySwingWin : JournalEntry := mkEntry "sw" .swing (some .WIN) 30 none none

/-- Outcomes [WIN, WIN, LOSS, WIN], newest first by resolution stamp. -/
def streakSample : List JournalEntry :=
  [ mkEntry "w1" .scalping (some .WIN) 400 (some 400) none
  , mkEntry "w2" .scalping (some .WIN) 300 (some 300) none
  , mkEntry "l3" .scalping (some .LOSS) 200 (some 200) none
  , mkEntry "w4" .scalping (some .WIN) 100 (some 100) none ]

/-! ## Theorems -/

/-- C2: `isRetryableError` returns true exactly for a numeric status of
429 or 503, or a message whose lowercasing contains "quota",
"rate limit", or "too many requests"; every other error — including
non-object errors — is non-retryable. -/
theorem isRetryableError_iff (e : JsError) :
    isRetryableError e = true ↔
      ((∃ o, e = .obj o ∧ (o.status = some 429 ∨ o.status = some 503)) ∨
       (∃ o m, e = .obj o ∧ o.message = some m ∧
         (jsIncludes (jsToLower m) "quota" = true ∨
          jsIncludes (jsToLower m) "rate limit" = true ∨
          jsIncludes (jsToLower m) "too many requests" = true))) := by
  cases e with
  | prim => simp [isRetryableError]
  | obj o =>
    obtain ⟨st, msg⟩ := o
    by_cases hs : st = some 429 ∨ st = some 503
    · have hcond : (st == some 429 || st == some 503) = true := by
        rcases hs with h | h <;> simp [h]
      constructor
      · intro _
        exact Or.inl ⟨⟨st, msg⟩, rfl, hs⟩
      · intro _
        cases msg <;> simp [isRetryableError, hcond]
    · have h1 : (st == some 429) = false := by
        simp only [beq_eq_false_iff_ne, ne_eq]
        exact fun h => hs (Or.inl h)
      have h2 : (st == some 503) = false := by
        simp only [beq_eq_false_iff_ne, ne_eq]
        exact fun h => hs (Or.inr h)
      cases msg with
      | none =>
        have hlhs : isRetryableError (.obj ⟨st, none⟩) = false := by
          simp [isRetryableError, h1, h2,
            (by decide : jsIncludes "" "quota" = false),
            (by decide : jsIncludes "" "rate limit" = false),
            (by decide : jsIncludes "" "too many requests" = false)]
        rw [hlhs]
        constructor
        · intro h
          exact absurd h (by simp)
        · rintro (⟨o, ho, hs'⟩ | ⟨o, m', ho, hm, _⟩)
          · cases ho
            exact absurd hs' hs
          · cases ho
            exact absurd hm (by simp)
      | some m =>
        have hlhs : isRetryableError (.obj ⟨st, some m⟩) =
            (jsIncludes (jsToLower m) "quota" || jsIncludes (jsToLower m) "rate limit" ||
              jsIncludes (jsToLower m) "too many requests") := by
          simp [isRetryableError, h1, h2]
        rw [hlhs]
        simp only [Bool.or_eq_true]
        constructor
        · intro h
          refine Or.inr ⟨⟨st, some m⟩, m, rfl, rfl, ?_⟩
          tauto
        · rintro (⟨o, ho, hs'⟩ | ⟨o, m', ho, hm, hin⟩)
          · cases ho
            exact absurd hs' hs
          · cases ho
            have hm' : m = m' := Option.some.inj hm
            subst hm'
            tauto

/-- C3: `getBackoffDelay k = min(2000 · 2^k, 8000)`, giving 2000, 4000,
8000 for k = 0, 1, 2 and 8000 (clamped) for k = 3; these are the delays
computed at the head of retries 1, 2, 3 in `withRetry`. -/
theorem getBackoffDelay_formula :
    (∀ k, getBackoffDelay k = min (2000 * 2 ^ k) 8000)
    ∧ getBackoffDelay 0 = 2000 ∧ getBackoffDelay 1 = 4000
    ∧ getBackoffDelay 2 = 8000 ∧ getBackoffDelay 3 = 8000
    ∧ delayBeforeRetry 1 = 2000 ∧ delayBeforeRetry 2 = 4000
    ∧ delayBeforeRetry 3 = 8000 :=
  ⟨fun _ => rfl, by decide, by decide, by decide, by decide,
   by decide, by decide, by decide⟩

theorem withRetryGo_ok {α : Type} (operation : Nat → Except JsError α) (k : Nat) (r : α) :
    ∀ fuel attempt, attempt ≤ k → k ≤ attempt + fuel →
      (∀ j, attempt ≤ j → j < k → ∃ e, operation j = .error e ∧ isRetryableError e = true) →
      operation k = .ok r → withRetryGo operation attempt fuel = .ok r := by
  intro fuel
  induction fuel with
  | zero =>
    intro attempt h1 h2 _ hk
    have hak : attempt = k := by omega
    subst hak
    rw [withRetryGo, hk]
  | succ f ih =>
    intro attempt h1 h2 hpre hk
    rcases Nat.lt_or_ge attempt k with hlt | hge
    · obtain ⟨e, he, hre⟩ := hpre attempt le_rfl hlt
      rw [withRetryGo, he]
      simp only [hre, Bool.not_true, Bool.false_eq_true, if_false]
      exact ih (attempt + 1) hlt (by omega) (fun j hj1 hj2 => hpre j (by omega) hj2) hk
    · have hak : attempt = k := by omega
      subst hak
      rw [withRetryGo, hk]

theorem withRetryGo_nonretryable {α : Type} (operation : Nat → Except JsError α)
    (k : Nat) (e : JsError) :
    ∀ fuel attempt, attempt ≤ k → k ≤ attempt + fuel →
      (∀ j, attempt ≤ j → j < k → ∃ e2, operation j = .error e2 ∧ isRetryableError e2 = true) →
      operation k = .error e → isRetryableError e = false →
      withRetryGo operation attempt fuel = .error e := by
  intro fuel
  induction fuel with
  | zero =>
    intro attempt h1 h2 _ hk _
    have hak : attempt = k := by omega
    subst hak
    rw [withRetryGo, hk]
    exact ite_self _
  | succ f ih =>
    intro attempt h1 h2 hpre hk hnr
    rcases Nat.lt_or_ge attempt k with hlt | hge
    · obtain ⟨e2, he2, hre2⟩ := hpre attempt le_rfl hlt
      rw [withRetryGo, he2]
      simp only [hre2, Bool.not_true, Bool.false_eq_true, if_false]
      exact ih (attempt + 1) hlt (by omega) (fun j hj1 hj2 => hpre j (by omega) hj2) hk hnr
    · have hak : attempt = k := by omega
      subst hak
      rw [withRetryGo, hk]
      simp only [hnr, Bool.not_false, if_true]

theorem withRetryGo_allRetryable {α : Type} (operation : Nat → Except JsError α)
    (err : Nat → JsError) :
    ∀ fuel attempt,
      (∀ j, attempt ≤ j → j ≤ attempt + fuel →
        operation j = .error (err j) ∧ isRetryableError (err j) = true) →
      withRetryGo operation attempt fuel = .error (err (attempt + fuel)) := by
  intro fuel
  induction fuel with
  | zero =>
    intro attempt hall
    obtain ⟨he, hre⟩ := hall attempt le_rfl (by omega)
    rw [withRetryGo, he]
    simp only [hre, Bool.not_true, Bool.false_eq_true, if_false, Nat.add_zero]
  | succ f ih =>
    intro attempt hall
    obtain ⟨he, hre⟩ := hall attempt le_rfl (by omega)
    rw [withRetryGo, he]
    simp only [hre, Bool.not_true, Bool.false_eq_true, if_false]
    have heq := ih (attempt + 1) (fun j hj1 hj2 => hall j (by omega) (by omega))
    have harith : attempt + 1 + f = attempt + (f + 1) := by omega
    rw [heq, harith]

theorem withRetryGo_congr {α : Type} (op1 op2 : Nat → Except JsError α) :
    ∀ fuel attempt, (∀ j, attempt ≤ j → j ≤ attempt + fuel → op1 j = op2 j) →
      withRetryGo op1 attempt fuel = withRetryGo op2 attempt fuel := by
  intro fuel
  induction fuel with
  | zero =>
    intro attempt hagree
    have h := hagree attempt le_rfl (by omega)
    rw [withRetryGo, h, withRetryGo]
  | succ f ih =>
    intro attempt hagree
    have h := hagree attempt le_rfl (by omega)
    rw [withRetryGo, h]
    conv_rhs => rw [withRetryGo]
    cases op2 attempt with
    | ok r => rfl
    | error e =>
      cases hre : isRetryableError e with
      | false => simp [hre]
      | true =>
        simp only [hre, Bool.not_true, Bool.false_eq_true, if_false]
        exact ih (attempt + 1) (fun j hj1 hj2 => hagree j (by omega) (by omega))

/-- C1: `withRetry` returns the operation's result as soon as any attempt
succeeds; a non-retryable failure is propagated immediately with no
further attempts; if every attempt fails retryably, exactly 4 attempts
(indices 0..3) are made and the 4th attempt's error is propagated; and
the outcome never depends on attempts beyond index 3. -/
theorem withRetry_semantics {α : Type} (operation : Nat → Except JsError α) :
    (∀ k r, k ≤ RETRY_CONFIG.MAX_RETRIES →
      (∀ j, j < k → ∃ e, operation j = .error e ∧ isRetryableError e = true) →
      operation k = .ok r → withRetry operation = .ok r)
    ∧ (∀ k e, k ≤ RETRY_CONFIG.MAX_RETRIES →
      (∀ j, j < k → ∃ e2, operation j = .error e2 ∧ isRetryableError e2 = true) →
      operation k = .error e → isRetryableError e = false →
      withRetry operation = .error e)
    ∧ (∀ err : Nat → JsError,
      (∀ j, j ≤ RETRY_CONFIG.MAX_RETRIES →
        operation j = .error (err j) ∧ isRetryableError (err j) = true) →
      withRetry operation = .error (err RETRY_CONFIG.MAX_RETRIES))
    ∧ (∀ op2 : Nat → Except JsError α,
      (∀ j, j ≤ RETRY_CONFIG.MAX_RETRIES → operation j = op2 j) →
      withRetry operation = withRetry op2) := by
  refine ⟨?_, ?_, ?_, ?_⟩
  · intro k r hk hpre hok
    exact withRetryGo_ok operation k r RETRY_CONFIG.MAX_RETRIES 0 (by omega) (by omega)
      (fun j _ hj2 => hpre j hj2) hok
  · intro k e hk hpre herr hnr
    exact withRetryGo_nonretryable operation k e RETRY_CONFIG.MAX_RETRIES 0 (by omega)
      (by omega) (fun j _ hj2 => hpre j hj2) herr hnr
  · intro err hall
    exact withRetryGo_allRetryable operation err RETRY_CONFIG.MAX_RETRIES 0
      (fun j _ hj2 => hall j hj2)
  · intro op2 hagree
    exact withRetryGo_congr operation op2 RETRY_CONFIG.MAX_RETRIES 0
      (fun j _ hj2 => hagree j hj2)

/-- Witness for C1: the always-503 operation fails with the 4th attempt's
error after exhausting the budget. -/
theorem withRetry_semantics_witness :
    withRetry (fun _ => (.error (JsError.obj ⟨some 503, none⟩) : Except JsError Nat)) =
      .error (JsError.obj ⟨some 503, none⟩) :=
  (withRetry_semantics
      (fun _ => (.error (JsError.obj ⟨some 503, none⟩) : Except JsError Nat))).2.2.1
    (fun _ => JsError.obj ⟨some 503, none⟩)
    (fun _ _ => ⟨rfl, (by decide : isRetryableError (JsError.obj ⟨some 503, none⟩) = true)⟩)

/-- C6 counterexample: persisted content `"null"` is corrupt (it is valid
JSON of the wrong shape); `getJournal` does not treat it as the empty
store, and `getJournalStats` fails on it with a `TypeError` instead of
returning statistics. -/
theorem getJournal_corrupt_counterexample :
    getJournal .jsonNull ≠ .real ⟨[]⟩ ∧ (getJournalStatsE .jsonNull).isOk = false := by
  decide

/-- C6 amended: `getJournal` never throws, and absent or *unparseable*
storage falls back to the empty store with downstream readers such as
`getJournalStats` succeeding; but corrupt content that still parses
(e.g. `"null"`) is passed through the unchecked cast, and downstream
readers fail on it. -/
theorem getJournal_corrupt_amended :
    ∀ d : StoredData, d ≠ .jsonNull →
      (∃ stats, getJournalStatsE d = .ok stats)
      ∧ ((d = .absent ∨ d = .unparseable) → getJournal d = .real ⟨[]⟩) := by
  intro d hd
  cases d with
  | absent => exact ⟨⟨computeStats [], rfl⟩, fun _ => rfl⟩
  | unparseable => exact ⟨⟨computeStats [], rfl⟩, fun _ => rfl⟩
  | jsonNull => exact absurd rfl hd
  | store s =>
    refine ⟨⟨computeStats s.entries, rfl⟩, fun h => ?_⟩
    rcases h with h | h <;> exact absurd h (by simp)

/-- Witness for the amended C6 at unparseable storage. -/
theorem getJournal_corrupt_amended_witness :
    (∃ stats, getJournalStatsE .unparseable = .ok stats)
    ∧ ((StoredData.unparseable = .absent ∨ StoredData.unparseable = .unparseable) →
        getJournal .unparseable = .real ⟨[]⟩) :=
  getJournal_corrupt_amended .unparseable (by decide)

theorem length_outcome_partition (l : List JournalEntry) :
    l.length =
      (l.filter (fun e => e.outcome == some .WIN)).length
      + (l.filter (fun e => e.outcome == some .LOSS)).length
      + (l.filter (fun e => e.outcome == some .BREAKEVEN)).length
      + (l.filter (fun e => e.outcome == none || e.outcome == some .PENDING)).length := by
  induction l with
  | nil => rfl
  | cons e t ih =>
    rcases ho : e.outcome with _ | o
    · simp only [List.filter_cons, List.length_cons, ho]
      simp only [show ((none : Option TradeOutcome) == some TradeOutcome.WIN) = false from rfl,
        show ((none : Option TradeOutcome) == some TradeOutcome.LOSS) = false from rfl,
        show ((none : Option TradeOutcome) == some TradeOutcome.BREAKEVEN) = false from rfl,
        show ((none : Option TradeOutcome) == none
          || (none : Option TradeOutcome) == some TradeOutcome.PENDING) = true from rfl]
      simp only [if_false, if_true, List.length_cons, Bool.false_eq_true]
      omega
    · cases o <;> simp [List.filter_cons, ho] <;> omega

theorem resolved_eq_sum (l : List JournalEntry) :
    (l.filter isResolvedOutcome).length =
      (l.filter (fun e => e.outcome == some .WIN)).length
      + (l.filter (fun e => e.outcome == some .LOSS)).length
      + (l.filter (fun e => e.outcome == some .BREAKEVEN)).length := by
  induction l with
  | nil => rfl
  | cons e t ih =>
    rcases ho : e.outcome with _ | o
    · simp [List.filter_cons, isResolvedOutcome, ho, ih]
    · cases o <;> simp [List.filter_cons, isResolvedOutcome, ho, ih] <;> omega

/-- C10: `getJournalStats` counts partition the entries: `total` equals
`winCount + lossCount + breakEvenCount + pendingCount`, and entries whose
outcome is absent are normalized to PENDING, i.e. `pendingCount` counts
exactly the entries whose outcome defaults to PENDING. -/
theorem computeStats_partition (entries : List JournalEntry) :
    (computeStats entries).total =
      (computeStats entries).winCount + (computeStats entries).lossCount
      + (computeStats entries).breakEvenCount + (computeStats entries).pendingCount
    ∧ (computeStats entries).pendingCount =
      (entries.filter (fun e => e.outcome.getD .PENDING == .PENDING)).length := by
  constructor
  · simpa only [computeStats] using length_outcome_partition entries
  · simp only [computeStats]
    congr 1
    apply List.filter_congr
    intro e _
    rcases e.outcome with _ | o
    · rfl
    · cases o <;> rfl

/-- C9 counterexample: on one scalping WIN plus one scalping BREAKEVEN the
code's per-mode denominator *includes* the BREAKEVEN (rate 50), the
claim's formula excludes it (rate 100), and the global and per-mode rates
agree rather than differ. -/
theorem winRate_perMode_counterexample :
    claimWinRateScalping [entryScalpWin, entryScalpBE] = 100
    ∧ (computeStats [entryScalpWin, entryScalpBE]).winRateScalping = 50
    ∧ (computeStats [entryScalpWin, entryScalpBE]).winRate =
        (computeStats [entryScalpWin, entryScalpBE]).winRateScalping := by
  refine ⟨?_, ?_, ?_⟩
  · simp +decide [claimWinRateScalping, entryScalpWin, entryScalpBE, mkEntry]
  · simp +decide [computeStats, entryScalpWin, entryScalpBE, mkEntry, isResolvedOutcome]
    norm_num
  · simp +decide [computeStats, entryScalpWin, entryScalpBE, mkEntry, isResolvedOutcome]

/-- C9 amended: the per-mode "resolved" denominator (`outcome` present and
not PENDING) equals `winCount + lossCount + breakEvenCount`, i.e. it
includes BREAKEVEN exactly like the global denominator, and on every
entry list of a single mode — all-scalping or all-swing — the global win
rate equals that mode's win rate. -/
theorem winRate_perMode_amended :
    (∀ entries : List JournalEntry,
      (entries.filter isResolvedOutcome).length =
        (entries.filter (fun e => e.outcome == some .WIN)).length
        + (entries.filter (fun e => e.outcome == some .LOSS)).length
        + (entries.filter (fun e => e.outcome == some .BREAKEVEN)).length)
    ∧ (∀ entries, (∀ e ∈ entries, e.mode = .scalping) →
        (computeStats entries).winRate = (computeStats entries).winRateScalping)
    ∧ (∀ entries, (∀ e ∈ entries, e.mode = .swing) →
        (computeStats entries).winRate = (computeStats entries).winRateSwing) := by
  refine ⟨resolved_eq_sum, ?_, ?_⟩
  · intro entries hmode
    have hfilter : entries.filter (fun e => e.mode == .scalping) = entries := by
      apply List.filter_eq_self.mpr
      intro e he
      simp [hmode e he]
    simp only [computeStats, hfilter]
    rw [resolved_eq_sum entries]
  · intro entries hmode
    have hfilter : entries.filter (fun e => e.mode == .swing) = entries := by
      apply List.filter_eq_self.mpr
      intro e he
      simp [hmode e he]
    simp only [computeStats, hfilter]
    rw [resolved_eq_sum entries]

/-- Witness for the amended C9 on concrete single-mode lists, one per
mode. -/
theorem winRate_perMode_amended_witness :
    (computeStats [entryScalpWin]).winRate = (computeStats [entryScalpWin]).winRateScalping
    ∧ (computeStats [entrySwingWin]).winRate = (computeStats [entrySwingWin]).winRateSwing :=
  ⟨winRate_perMode_amended.2.1 [entryScalpWin] (by decide),
   winRate_perMode_amended.2.2 [entrySwingWin] (by decide)⟩

theorem streakCount_eq_takeWhile (o : TradeOutcome) (l : List JournalEntry) :
    streakCount o l = (l.takeWhile (fun e => e.outcome == some o)).length := by
  induction l with
  | nil => rfl
  | cons e t ih =>
    by_cases h : e.outcome = some o
    · have hb : (e.outcome == some o) = true := by simp [h]
      simp [streakCount, List.takeWhile_cons, h, hb, ih]
    · have hb : (e.outcome == some o) = false := by simp [h]
      simp [streakCount, List.takeWhile_cons, h, hb]

theorem streakFilter_eq (e : JournalEntry) :
    streakFilter e = (e.outcome == some .WIN || e.outcome == some .LOSS) := by
  rcases ho : e.outcome with _ | o
  · simp [streakFilter, ho]
  · cases o <;> simp [streakFilter, ho]

/-- C8 counterexample: with an entry whose `outcomeUpdatedAt` is present
but 0 (WIN, created at 100) next to a LOSS resolved at 60, the code's
truthiness fallback sorts the WIN first (streak type WIN) while the
claim's "if present" key sorts the LOSS first (streak type LOSS). -/
theorem streak_key_counterexample :
    (computeStats [entryZeroStamp, entrySixtyStamp]).streakType = .WIN
    ∧ claimStreak [entryZeroStamp, entrySixtyStamp] = (1, .LOSS)
    ∧ ((computeStats [entryZeroStamp, entrySixtyStamp]).currentStreak,
        (computeStats [entryZeroStamp, entrySixtyStamp]).streakType)
        ≠ claimStreak [entryZeroStamp, entrySixtyStamp] := by
  decide

/-- C8 amended: the streak computed by `getJournalStats` equals the
claim's algorithm with the sort key amended to use `outcomeUpdatedAt`
only when present *and nonzero* (else the creation timestamp): filter to
WIN/LOSS outcomes, sort descending by that key, and take the length of
the initial run sharing the most recent entry's outcome; in particular
outcomes [WIN, WIN, LOSS, WIN] newest-first yield streak 2 of type WIN. -/
theorem streak_amended :
    (∀ entries : List JournalEntry,
      ((computeStats entries).currentStreak, (computeStats entries).streakType) =
        amendedStreak entries)
    ∧ (computeStats streakSample).currentStreak = 2
    ∧ (computeStats streakSample).streakType = .WIN := by
  refine ⟨?_, by decide, by decide⟩
  intro entries
  have hf : entries.filter streakFilter =
      entries.filter (fun e => e.outcome == some .WIN || e.outcome == some .LOSS) :=
    List.filter_congr (fun e _ => streakFilter_eq e)
  simp only [computeStats, amendedStreak, hf]
  generalize jsSortBy (fun a b => decide (streakSortKey b ≤ streakSortKey a))
    (entries.filter (fun e => e.outcome == some .WIN || e.outcome == some .LOSS)) = s
  cases s with
  | nil => rfl
  | cons first rest =>
    rcases ho : first.outcome with _ | o
    · simp only [ho]
    · cases o with
      | WIN => simp only [ho, streakCount_eq_takeWhile]
      | LOSS => simp only [ho, streakCount_eq_takeWhile]
      | BREAKEVEN => simp only [ho]
      | PENDING => simp only [ho]

theorem findIdx_eq_none_of_all {α : Type} (p : α → Bool) :
    ∀ l : List α, (∀ x ∈ l, p x = false) → l.findIdx? p = none := by
  intro l hall
  simp only [List.findIdx?_eq_none_iff]
  intro x hx
  simp [hall x hx]

theorem findIdx_append_cons {α : Type} (p : α → Bool) (e : α) (post : List α) :
    ∀ pre : List α, (∀ x ∈ pre, p x = false) → p e = true →
      (pre ++ e :: post).findIdx? p = some pre.length := by
  intro pre
  induction pre with
  | nil =>
    intro _ he
    simp only [List.nil_append, List.findIdx?_cons, he, if_true, List.length_nil]
  | cons x t ih =>
    intro hall he
    rw [List.cons_append, List.findIdx?_cons, hall x (by simp)]
    simp only [Bool.false_eq_true, if_false, List.findIdx?_succ,
      ih (fun y hy => hall y (by simp [hy])) he, List.length_cons]
    rfl

theorem listModify_append_cons {α : Type} (f : α → α) (e : α) (post : List α) :
    ∀ pre : List α, listModify f pre.length (pre ++ e :: post) = pre ++ f e :: post := by
  intro pre
  induction pre with
  | nil => rfl
  | cons x t ih =>
    simp only [List.cons_append, List.length_cons, listModify]
    exact congrArg (List.cons x) ih

/-- C7: `updateJournalOutcome` on an id present in the store rewrites
exactly that entry via `applyOutcomeUpdate` — which sets `outcome`,
stamps `outcomeUpdatedAt` to now, overwrites `notes`/`pnl` only when
provided, and preserves every other field — leaves every other entry
untouched, persists, and returns true; on an absent id it returns false
with the whole storage state unchanged. -/
theorem updateJournalOutcome_spec :
    (∀ (id : String) (outcome : TradeOutcome) (notes : Option String) (pnl : Option Rat)
        (now : Nat) (st : StorageState) (entries : List JournalEntry),
      entriesOf (getJournal st.data) = .ok entries →
      (∀ e ∈ entries, e.id ≠ id) →
      updateJournalOutcome id outcome notes pnl now st = (false, st))
    ∧ (∀ (id : String) (outcome : TradeOutcome) (notes : Option String) (pnl : Option Rat)
        (now : Nat) (pre : List JournalEntry) (e : JournalEntry) (post : List JournalEntry)
        (ws : List JournalStore),
      (∀ x ∈ pre, x.id ≠ id) → e.id = id →
      updateJournalOutcome id outcome notes pnl now ⟨.store ⟨pre ++ e :: post⟩, [], ws⟩ =
        (true, ⟨.store ⟨pre ++ applyOutcomeUpdate outcome notes pnl now e :: post⟩, [],
                ws ++ [⟨pre ++ applyOutcomeUpdate outcome notes pnl now e :: post⟩]⟩))
    ∧ (∀ (outcome : TradeOutcome) (notes : Option String) (pnl : Option Rat) (now : Nat)
        (e : JournalEntry),
      (applyOutcomeUpdate outcome notes pnl now e).outcome = some outcome
      ∧ (applyOutcomeUpdate outcome notes pnl now e).outcomeUpdatedAt = some now
      ∧ (notes = none → (applyOutcomeUpdate outcome notes pnl now e).notes = e.notes)
      ∧ (∀ n, notes = some n → (applyOutcomeUpdate outcome notes pnl now e).notes = some n)
      ∧ (pnl = none → (applyOutcomeUpdate outcome notes pnl now e).pnl = e.pnl)
      ∧ (∀ q, pnl = some q → (applyOutcomeUpdate outcome notes pnl now e).pnl = some q)
      ∧ (applyOutcomeUpdate outcome notes pnl now e).id = e.id
      ∧ (applyOutcomeUpdate outcome notes pnl now e).timestamp = e.timestamp
      ∧ (applyOutcomeUpdate outcome notes pnl now e).mode = e.mode
      ∧ (applyOutcomeUpdate outcome notes pnl now e).imageThumbnail = e.imageThumbnail
      ∧ (applyOutcomeUpdate outcome notes pnl now e).imageFileName = e.imageFileName
      ∧ (applyOutcomeUpdate outcome notes pnl now e).decision = e.decision
      ∧ (applyOutcomeUpdate outcome notes pnl now e).confidence = e.confidence
      ∧ (applyOutcomeUpdate outcome notes pnl now e).analysis = e.analysis
      ∧ (applyOutcomeUpdate outcome notes pnl now e).pair = e.pair
      ∧ (applyOutcomeUpdate outcome notes pnl now e).isConfluence = e.isConfluence) := by
  refine ⟨?_, ?_, ?_⟩
  · intro id outcome notes pnl now st entries hE hall
    have hnone : entries.findIdx? (fun e => e.id == id) = none :=
      findIdx_eq_none_of_all _ entries
        (fun x hx => beq_eq_false_iff_ne.mpr (hall x hx))
    simp only [updateJournalOutcome, hE, hnone]
  · intro id outcome notes pnl now pre e post ws hpre he
    have hfind : ((pre ++ e :: post).findIdx? (fun x => x.id == id)) = some pre.length :=
      findIdx_append_cons _ e post pre
        (fun x hx => beq_eq_false_iff_ne.mpr (hpre x hx))
        (by simp [he])
    simp only [updateJournalOutcome, getJournal, entriesOf, hfind,
      listModify_append_cons, saveJournalToStorage, setItem]
  · intro outcome notes pnl now e
    refine ⟨rfl, rfl, ?_, ?_, ?_, ?_, rfl, rfl, rfl, rfl, rfl, rfl, rfl, rfl, rfl, rfl⟩
    · intro h
      subst h
      rfl
    · intro n h
      subst h
      rfl
    · intro h
      subst h
      rfl
    · intro q h
      subst h
      rfl

/-- Witness for C7: updating entry "b" in a two-entry store. -/
theorem updateJournalOutcome_spec_witness :
    updateJournalOutcome "b" .WIN none none 99
        ⟨.store ⟨[entryScalpWin, entryScalpBE]⟩, [], []⟩ =
      (true, ⟨.store ⟨[entryScalpWin, applyOutcomeUpdate .WIN none none 99 entryScalpBE]⟩, [],
              [⟨[entryScalpWin, applyOutcomeUpdate .WIN none none 99 entryScalpBE]⟩]⟩) :=
  updateJournalOutcome_spec.2.1 "b" .WIN none none 99 [entryScalpWin] entryScalpBE [] []
    (by decide) (by decide)

theorem setItem_writes (s : JournalStore) (st : StorageState) :
    ((setItem s st).2).writes = st.writes ++ [s] := by
  rcases st with ⟨d, rs, ws⟩
  cases rs <;> rfl

theorem saveJournalToStorage_writes (j : JournalStore) (st : StorageState) :
    ∀ w ∈ (saveJournalToStorage j st).2.2.writes,
      w ∈ st.writes ∨ w = j ∨ w = ⟨j.entries.dropLast⟩ := by
  intro w hw
  unfold saveJournalToStorage at hw
  rcases hsi : setItem j st with ⟨r1, st1⟩
  have h1 : st1.writes = st.writes ++ [j] := by
    have h := setItem_writes j st
    rw [hsi] at h
    exact h
  rw [hsi] at hw
  cases r1 with
  | ok =>
    dsimp only at hw
    rw [h1] at hw
    rcases List.mem_append.mp hw with h | h
    · exact Or.inl h
    · exact Or.inr (Or.inl (List.mem_singleton.mp h))
  | quotaExceeded =>
    dsimp only at hw
    by_cases hlen : j.entries.length > 1
    · rw [if_pos hlen] at hw
      rcases hsi2 : setItem ⟨j.entries.dropLast⟩ st1 with ⟨r2, st2⟩
      have h2 : st2.writes = st1.writes ++ [(⟨j.entries.dropLast⟩ : JournalStore)] := by
        have h := setItem_writes ⟨j.entries.dropLast⟩ st1
        rw [hsi2] at h
        exact h
      rw [hsi2] at hw
      have hw2 : w ∈ st2.writes := by
        cases r2 <;> exact hw
      rw [h2, h1] at hw2
      rcases List.mem_append.mp hw2 with h | h
      · rcases List.mem_append.mp h with h3 | h3
        · exact Or.inl h3
        · exact Or.inr (Or.inl (List.mem_singleton.mp h3))
      · exact Or.inr (Or.inr (List.mem_singleton.mp h))
    · rw [if_neg hlen] at hw
      rw [h1] at hw
      rcases List.mem_append.mp hw with h | h
      · exact Or.inl h
      · exact Or.inr (Or.inl (List.mem_singleton.mp h))
  | otherError =>
    dsimp only at hw
    rw [h1] at hw
    rcases List.mem_append.mp hw with h | h
    · exact Or.inl h
    · exact Or.inr (Or.inl (List.mem_singleton.mp h))

theorem saveJournalToStorage_journal_length (j : JournalStore) (st : StorageState) :
    (saveJournalToStorage j st).2.1.entries.length ≤ j.entries.length := by
  unfold saveJournalToStorage
  rcases hsi : setItem j st with ⟨r1, st1⟩
  cases r1 with
  | ok => exact le_rfl
  | quotaExceeded =>
    dsimp only
    by_cases hlen : j.entries.length > 1
    · rw [if_pos hlen]
      rcases hsi2 : setItem ⟨j.entries.dropLast⟩ st1 with ⟨r2, st2⟩
      cases r2 <;> simp [List.length_dropLast]
    · rw [if_neg hlen]
  | otherError => exact le_rfl

theorem addAndTruncate_length_le (e : JournalEntry) (l : List JournalEntry) :
    (addAndTruncate e l).length ≤ MAX_ENTRIES := by
  unfold addAndTruncate
  dsimp only
  split
  · simp only [List.length_take]
    omega
  · rename_i h
    simp only [List.length_cons, gt_iff_lt, not_lt] at h
    simpa using h

theorem addAndTruncate_cons (e : JournalEntry) (l : List JournalEntry) :
    ∃ rest, addAndTruncate e l = e :: rest := by
  unfold addAndTruncate
  dsimp only
  split
  · exact ⟨l.take 49, rfl⟩
  · exact ⟨l, rfl⟩

set_option maxRecDepth 40000

/-- C5: every journal value `saveJournalEntry` hands to `setItem` holds at
most `MAX_ENTRIES` (50) entries, and concretely, adding 51 entries
sequentially to an empty profile leaves exactly 50 persisted entries with
the newest added ("51") first and the first-added ("1") evicted (the
oldest survivor being "2"). -/
theorem saveJournalEntry_capacity :
    (∀ (mode : TradeMode) (imageFileName : String) (analysis : AnalysisResponse)
        (pair : Option String) (isConfluence : Option Bool) (thumbRes : Except Unit String)
        (id : String) (now : Nat) (st : StorageState) (w : JournalStore),
      w ∈ (saveJournalEntry mode imageFileName analysis pair isConfluence
            thumbRes id now st).writes →
      w ∈ st.writes ∨ w.entries.length ≤ MAX_ENTRIES)
    ∧ (storedEntries (addN 51 initStorage).data).length = 50
    ∧ (storedEntries (addN 51 initStorage).data).head?.map (fun e => e.id) = some "51"
    ∧ (storedEntries (addN 51 initStorage).data).all (fun e => e.id != "1") = true
    ∧ (storedEntries (addN 51 initStorage).data).getLast?.map (fun e => e.id) = some "2" := by
  refine ⟨?_, by decide, by decide, by decide, by decide⟩
  intro mode imageFileName analysis pair isConfluence thumbRes id now st w hw
  have key : ∀ (thumbnail : String) (st : StorageState) (w : JournalStore),
      w ∈ (saveJournalEntry mode imageFileName analysis pair isConfluence
            (.ok thumbnail) id now st).writes →
      w ∈ st.writes ∨ w.entries.length ≤ MAX_ENTRIES := by
    intro thumbnail st w hw
    unfold saveJournalEntry saveJournalEntryBody at hw
    dsimp only at hw
    cases hE : entriesOf (getJournal st.data) with
    | error msg =>
      rw [hE] at hw
      exact Or.inl hw
    | ok entries0 =>
      rw [hE] at hw
      dsimp only at hw
      rcases hsave : saveJournalToStorage
          ⟨addAndTruncate (newEntry mode imageFileName analysis pair isConfluence
            thumbnail id now) entries0⟩ st with ⟨saved, journal1, st1⟩
      have hjlen : (addAndTruncate (newEntry mode imageFileName analysis pair isConfluence
          thumbnail id now) entries0).length ≤ MAX_ENTRIES := addAndTruncate_length_le _ _
      have hj1len : journal1.entries.length ≤ MAX_ENTRIES := by
        have h := saveJournalToStorage_journal_length
          ⟨addAndTruncate (newEntry mode imageFileName analysis pair isConfluence
            thumbnail id now) entries0⟩ st
        rw [hsave] at h
        exact le_trans h hjlen
      have hfirst : ∀ v ∈ st1.writes, v ∈ st.writes ∨ v.entries.length ≤ MAX_ENTRIES := by
        intro v hv
        have h := saveJournalToStorage_writes
          ⟨addAndTruncate (newEntry mode imageFileName analysis pair isConfluence
            thumbnail id now) entries0⟩ st
        rw [hsave] at h
        rcases h v hv with h3 | h3 | h3
        · exact Or.inl h3
        · refine Or.inr ?_
          rw [h3]
          exact hjlen
        · refine Or.inr ?_
          rw [h3]
          simp only [List.length_dropLast]
          omega
      rw [hsave] at hw
      dsimp only at hw
      cases saved with
      | true =>
        simp only [Bool.not_true, Bool.false_and, Bool.false_eq_true, if_false] at hw
        exact hfirst w hw
      | false =>
        cases hth : (thumbnail != "") with
        | false =>
          simp only [Bool.not_false, Bool.true_and, hth, Bool.false_eq_true, if_false] at hw
          exact hfirst w hw
        | true =>
          simp only [Bool.not_false, Bool.true_and, hth, if_true] at hw
          have h := saveJournalToStorage_writes
            ⟨journal1.entries.set 0
              { newEntry mode imageFileName analysis pair isConfluence thumbnail id now with
                imageThumbnail := "" }⟩ st1
          rcases h w hw with h3 | h3 | h3
          · exact hfirst w h3
          · refine Or.inr ?_
            rw [h3]
            simp only [List.length_set]
            exact hj1len
          · refine Or.inr ?_
            rw [h3]
            simp only [List.length_dropLast, List.length_set]
            omega
  cases thumbRes with
  | ok th => exact key th st w hw
  | error u => exact key "" st w hw

/-- Witness for C5 on a single add into an empty profile. -/
theorem saveJournalEntry_capacity_witness :
    (⟨[newEntry .scalping "chart.png" sampleAnalysis none none "thumb" "1" 1]⟩ : JournalStore)
        ∈ initStorage.writes
    ∨ (⟨[newEntry .scalping "chart.png" sampleAnalysis none none "thumb" "1" 1]⟩ :
        JournalStore).entries.length ≤ MAX_ENTRIES :=
  saveJournalEntry_capacity.1 .scalping "chart.png" sampleAnalysis none none
    (.ok "thumb") "1" 1 initStorage
    ⟨[newEntry .scalping "chart.png" sampleAnalysis none none "thumb" "1" 1]⟩
    (by decide)

theorem addAndTruncate_length_gt_one (e : JournalEntry) (l : List JournalEntry)
    (h : l ≠ []) : 1 < (addAndTruncate e l).length := by
  have hl : 0 < l.length := List.length_pos.mpr h
  unfold addAndTruncate
  dsimp only
  split
  · rename_i hgt
    simp only [MAX_ENTRIES, List.length_take, List.length_cons] at *
    omega
  · simp only [List.length_cons]
    omega

/-- C4: `saveJournalEntry` never raises: its body either completes
normally (and the call returns that state) or raises — only possible
before any write, on a corrupt parsed store — and the catch swallows the
error leaving storage untouched.  A thumbnail-generation failure falls
back to the empty thumbnail with the entry still saved at the front.  On
a quota failure (with a nonempty prior store and a nonempty thumbnail)
the attempted writes are exactly: the full journal, the journal minus its
oldest entry, and that journal with the new entry's thumbnail cleared —
after which the call returns normally with the persisted data unchanged. -/
theorem saveJournalEntry_resilience :
    (∀ (mode : TradeMode) (imageFileName : String) (analysis : AnalysisResponse)
        (pair : Option String) (isConfluence : Option Bool) (thumbRes : Except Unit String)
        (id : String) (now : Nat) (st : StorageState),
      (∃ st1, saveJournalEntryBody mode imageFileName analysis pair isConfluence
            thumbRes id now st = .ok st1
        ∧ saveJournalEntry mode imageFileName analysis pair isConfluence
            thumbRes id now st = st1)
      ∨ (∃ msg, saveJournalEntryBody mode imageFileName analysis pair isConfluence
            thumbRes id now st = .error msg
        ∧ saveJournalEntry mode imageFileName analysis pair isConfluence
            thumbRes id now st = st))
    ∧ (∀ (mode : TradeMode) (imageFileName : String) (analysis : AnalysisResponse)
        (pair : Option String) (isConfluence : Option Bool) (id : String) (now : Nat)
        (js : JournalStore) (ws : List JournalStore),
      ∃ rest, (saveJournalEntry mode imageFileName analysis pair isConfluence
          (.error ()) id now ⟨.store js, [], ws⟩).data =
        .store ⟨newEntry mode imageFileName analysis pair isConfluence "" id now :: rest⟩)
    ∧ (∀ (mode : TradeMode) (imageFileName : String) (analysis : AnalysisResponse)
        (pair : Option String) (isConfluence : Option Bool) (th : String) (id : String)
        (now : Nat) (js : JournalStore) (ws : List JournalStore),
      th ≠ "" → js.entries ≠ [] →
      saveJournalEntry mode imageFileName analysis pair isConfluence (.ok th) id now
          ⟨.store js, [.quotaExceeded, .otherError, .otherError], ws⟩ =
        ⟨.store js, [],
         ws ++ [⟨addAndTruncate (newEntry mode imageFileName analysis pair isConfluence
                  th id now) js.entries⟩,
                ⟨(addAndTruncate (newEntry mode imageFileName analysis pair isConfluence
                  th id now) js.entries).dropLast⟩,
                ⟨((addAndTruncate (newEntry mode imageFileName analysis pair isConfluence
                  th id now) js.entries).dropLast).set 0
                  { newEntry mode imageFileName analysis pair isConfluence th id now with
                    imageThumbnail := "" }⟩]⟩) := by
  refine ⟨?_, ?_, ?_⟩
  · intro mode imageFileName analysis pair isConfluence thumbRes id now st
    cases h : saveJournalEntryBody mode imageFileName analysis pair isConfluence
        thumbRes id now st with
    | ok st1 =>
      refine Or.inl ⟨st1, rfl, ?_⟩
      unfold saveJournalEntry
      rw [h]
    | error msg =>
      refine Or.inr ⟨msg, rfl, ?_⟩
      unfold saveJournalEntry
      rw [h]
  · intro mode imageFileName analysis pair isConfluence id now js ws
    obtain ⟨rest, hrest⟩ :=
      addAndTruncate_cons (newEntry mode imageFileName analysis pair isConfluence "" id now)
        js.entries
    refine ⟨rest, ?_⟩
    simp only [saveJournalEntry, saveJournalEntryBody, getJournal, entriesOf,
      saveJournalToStorage, setItem, hrest, Bool.not_true, Bool.false_and,
      Bool.false_eq_true, if_false]
  · intro mode imageFileName analysis pair isConfluence th id now js ws hth hjs
    have hgt : 1 < (addAndTruncate (newEntry mode imageFileName analysis pair isConfluence
        th id now) js.entries).length :=
      addAndTruncate_length_gt_one _ _ hjs
    have hthb : (th != "") = true := bne_iff_ne.mpr hth
    simp only [saveJournalEntry, saveJournalEntryBody, getJournal, entriesOf,
      saveJournalToStorage, setItem]
    rw [if_pos hgt]
    simp only [hthb, Bool.not_false, Bool.true_and, if_true, List.append_assoc,
      List.singleton_append, List.cons_append, List.nil_append]
    rfl

/-- Witness for C4: the quota ladder on a one-entry store with a nonempty
thumbnail, under the write script quota-then-failure-then-failure. -/
theorem saveJournalEntry_resilience_witness :
    saveJournalEntry .scalping "chart.png" sampleAnalysis none none (.ok "thumb") "new" 5
        ⟨.store ⟨[entryScalpWin]⟩, [.quotaExceeded, .otherError, .otherError], []⟩ =
      ⟨.store ⟨[entryScalpWin]⟩, [],
       [⟨addAndTruncate (newEntry .scalping "chart.png" sampleAnalysis none none
            "thumb" "new" 5) [entryScalpWin]⟩,
        ⟨(addAndTruncate (newEntry .scalping "chart.png" sampleAnalysis none none
            "thumb" "new" 5) [entryScalpWin]).dropLast⟩,
        ⟨((addAndTruncate (newEntry .scalping "chart.png" sampleAnalysis none none
            "thumb" "new" 5) [entryScalpWin]).dropLast).set 0
          { newEntry .scalping "chart.png" sampleAnalysis none none "thumb" "new" 5 with
            imageThumbnail := "" }⟩]⟩ :=
  saveJournalEntry_resilience.2.2 .scalping "chart.png" sampleAnalysis none none
    "thumb" "new" 5 ⟨[entryScalpWin]⟩ [] (by decide) (by decide)

end SmartTrader
